import Mathlib

/-!
Verification development for a client-side request signer and invoker
(the aliyun-captcha package, src/index.js).

The embedding models the source program:
- JavaScript objects holding request parameters become association lists
  over strings, in insertion order, with first-match lookup.
- The escaper (encodeURIComponent followed by five replace calls) becomes
  a character-wise percent-encoder over the Unicode scalar values of a
  Lean string, with UTF-8 bytes percent-encoded in uppercase hex.
- crypto.createHmac("sha1", key).update(msg).digest("base64") becomes an
  executable HMAC-SHA1 over UTF-8 bytes followed by base64.
- The exported curried function becomes `verify`, with the per-call
  random nonce and timestamp passed in explicitly, and the outbound HTTP
  request reified as an `HttpRequest` value inside `Except`.
-/

/-! ## Association-list model of JavaScript objects -/

/-- Keys of an object, in insertion order (JavaScript Object.keys). -/
def keys (l : List (String × String)) : List String := l.map Prod.fst

/-- Property access on an object: first entry whose key matches. -/
def lookup? : List (String × String) → String → Option String
  | [], _ => none
  | kv :: rest, key => if kv.1 = key then some kv.2 else lookup? rest key

/-- Left-biased choice on optional values, used to state lookup lemmas. -/
def orO : Option String → Option String → Option String
  | some v, _ => some v
  | none, y => y

/-- Object.assign a b: every key of a keeps its position, its value
overridden by b when b has the key; keys of b not in a are appended in
order. -/
def assign (a b : List (String × String)) : List (String × String) :=
  a.map (fun kv => (kv.1, (lookup? b kv.1).getD kv.2)) ++
    b.filter (fun kv => decide (kv.1 ∉ keys a))

/-- JavaScript property assignment obj[k] = v: overwrite in place when the
key exists, append otherwise. -/
def setKey (l : List (String × String)) (k v : String) : List (String × String) :=
  if k ∈ keys l then l.map (fun kv => if kv.1 = k then (k, v) else kv)
  else l ++ [(k, v)]

/-- Remove every entry carrying the given key. -/
def removeKey (l : List (String × String)) (k : String) : List (String × String) :=
  l.filter (fun kv => decide (kv.1 ≠ k))

/-! ## The escaper (src/index.js lines 72-79)

encodeURIComponent leaves unescaped exactly A-Z a-z 0-9 - _ . ! ~ * ' ( )
and percent-encodes the UTF-8 bytes of every other character in uppercase
hex; the escaper then re-escapes ! ' ( ) * with five global replaces. -/

/-- Uppercase hex digit of a value below 16. -/
def hexDigit (n : Nat) : Char :=
  if n < 10 then Char.ofNat (48 + n) else Char.ofNat (55 + n)

/-- Percent-encoding of one byte: a percent sign and two uppercase hex
digits. -/
def pctByte (b : Nat) : List Char := ['%', hexDigit (b / 16), hexDigit (b % 16)]

/-- UTF-8 bytes of a Unicode scalar value. -/
def utf8Bytes (n : Nat) : List Nat :=
  if n < 0x80 then [n]
  else if n < 0x800 then [0xC0 + n / 64, 0x80 + n % 64]
  else if n < 0x10000 then [0xE0 + n / 4096, 0x80 + n / 64 % 64, 0x80 + n % 64]
  else [0xF0 + n / 262144, 0x80 + n / 4096 % 64, 0x80 + n / 64 % 64, 0x80 + n % 64]

/-- The character set encodeURIComponent leaves unescaped. -/
def uriUnescaped (c : Char) : Bool :=
  c.isAlpha || c.isDigit || c == '-' || c == '_' || c == '.' || c == '!' ||
    c == '~' || c == '*' || c == Char.ofNat 39 || c == '(' || c == ')'

/-- encodeURIComponent on one character. -/
def encodeChar (c : Char) : List Char :=
  if uriUnescaped c then [c] else (utf8Bytes c.toNat).flatMap pctByte

/-- encodeURIComponent over a list of characters. -/
def encodeURIComponentL (l : List Char) : List Char := l.flatMap encodeChar

/-- str.replace with a one-character global pattern. -/
def replaceAllC (c : Char) (r : List Char) (l : List Char) : List Char :=
  l.flatMap (fun d => if d = c then r else [d])

/-- The five replace calls of the escaper, applied left to right:
! then the apostrophe then ( then ) then *. -/
def escaperChain (l : List Char) : List Char :=
  replaceAllC '*' ['%', '2', 'A']
    (replaceAllC ')' ['%', '2', '9']
      (replaceAllC '(' ['%', '2', '8']
        (replaceAllC (Char.ofNat 39) ['%', '2', '7']
          (replaceAllC '!' ['%', '2', '1'] l))))

/-- The escaper of src/index.js: encodeURIComponent followed by the five
replaces. -/
def escaper (s : String) : String :=
  String.mk (escaperChain (encodeURIComponentL s.data))

/-- RFC3986 unreserved characters, as the specification words it:
A-Z a-z 0-9 - _ . ~ . -/
def rfc3986Unreserved (c : Char) : Bool :=
  c.isAlpha || c.isDigit || c == '-' || c == '_' || c == '.' || c == '~'

/-- Percent-encoding of one character that leaves exactly the unreserved
set unescaped. -/
def rfc3986EscapeChar (c : Char) : List Char :=
  if rfc3986Unreserved c then [c] else (utf8Bytes c.toNat).flatMap pctByte

/-- Escaping as the specification words it (second definition, for the
refinement claim about the escaper): percent-encode everything except the
RFC3986 unreserved characters, UTF-8 bytes in uppercase hex. -/
def rfc3986Escape (s : String) : String :=
  String.mk (s.data.flatMap rfc3986EscapeChar)

/-! ## HMAC-SHA1 and base64, modelling
crypto.createHmac("sha1", key).update(msg).digest("base64").
Bytes and 32-bit words are Nats kept below 2^32 by explicit reduction. -/

/-- Rotate a 32-bit word left by k bits. -/
def rol32 (n k : Nat) : Nat := (n * 2 ^ k + n / 2 ^ (32 - k)) % 2 ^ 32

/-- Big-endian bytes of a 64-bit value. -/
def be64 (n : Nat) : List Nat :=
  [n / 2 ^ 56 % 256, n / 2 ^ 48 % 256, n / 2 ^ 40 % 256, n / 2 ^ 32 % 256,
   n / 2 ^ 24 % 256, n / 2 ^ 16 % 256, n / 2 ^ 8 % 256, n % 256]

/-- Big-endian bytes of a 32-bit value. -/
def be32 (n : Nat) : List Nat :=
  [n / 2 ^ 24 % 256, n / 2 ^ 16 % 256, n / 2 ^ 8 % 256, n % 256]

/-- SHA-1 padding: a 0x80 byte, zero bytes up to 56 mod 64, then the
bit length as 64 bits big-endian. -/
def sha1Pad (m : List Nat) : List Nat :=
  m ++ [0x80] ++ List.replicate ((56 + 64 - (m.length + 1) % 64) % 64) 0 ++
    be64 (8 * m.length % 2 ^ 64)

/-- Pack bytes into 32-bit big-endian words. -/
def toWords : List Nat → List Nat
  | a :: b :: c :: d :: rest => (((a * 256 + b) * 256 + c) * 256 + d) :: toWords rest
  | _ => []

/-- Extend the 16 chunk words by k further words per the SHA-1 schedule. -/
def sha1Extend (ws : List Nat) : Nat → List Nat
  | 0 => ws
  | k + 1 =>
    let prev := sha1Extend ws k
    let i := prev.length
    prev ++ [rol32 (prev.getD (i - 3) 0 ^^^ prev.getD (i - 8) 0 ^^^
      prev.getD (i - 14) 0 ^^^ prev.getD (i - 16) 0) 1]

/-- The SHA-1 round function for round i. -/
def sha1F (i b c d : Nat) : Nat :=
  if i < 20 then (b &&& c) ||| ((b ^^^ 0xFFFFFFFF) &&& d)
  else if i < 40 then b ^^^ c ^^^ d
  else if i < 60 then (b &&& c) ||| (b &&& d) ||| (c &&& d)
  else b ^^^ c ^^^ d

/-- The SHA-1 round constant for round i. -/
def sha1K (i : Nat) : Nat :=
  if i < 20 then 0x5A827999
  else if i < 40 then 0x6ED9EBA1
  else if i < 60 then 0x8F1BBCDC
  else 0xCA62C1D6

/-- The 80 SHA-1 rounds over one chunk schedule. -/
def sha1Rounds (w : List Nat) (st : Nat × Nat × Nat × Nat × Nat) :
    Nat × Nat × Nat × Nat × Nat :=
  (List.range 80).foldl
    (fun st i =>
      let (a, b, c, d, e) := st
      ((rol32 a 5 + sha1F i b c d + e + sha1K i + w.getD i 0) % 2 ^ 32,
        a, rol32 b 30, c, d))
    st

/-- Process one 64-byte chunk into the running hash state. -/
def sha1Chunk (hs : Nat × Nat × Nat × Nat × Nat) (chunk : List Nat) :
    Nat × Nat × Nat × Nat × Nat :=
  let w := sha1Extend (toWords chunk) 64
  let (h0, h1, h2, h3, h4) := hs
  let (a, b, c, d, e) := sha1Rounds w (h0, h1, h2, h3, h4)
  ((h0 + a) % 2 ^ 32, (h1 + b) % 2 ^ 32, (h2 + c) % 2 ^ 32,
    (h3 + d) % 2 ^ 32, (h4 + e) % 2 ^ 32)

/-- Split a byte list into 64-byte chunks. -/
def chunks64 (l : List Nat) : List (List Nat) :=
  if h : l = [] then [] else l.take 64 :: chunks64 (l.drop 64)
termination_by l.length
decreasing_by
  simp only [List.length_drop]
  have := List.length_pos.mpr h
  omega

/-- SHA-1 of a byte list, as 20 bytes. -/
def sha1 (m : List Nat) : List Nat :=
  let (h0, h1, h2, h3, h4) :=
    (chunks64 (sha1Pad m)).foldl sha1Chunk
      (0x67452301, 0xEFCDAB89, 0x98BADCFE, 0x10325476, 0xC3D2E1F0)
  be32 h0 ++ be32 h1 ++ be32 h2 ++ be32 h3 ++ be32 h4

/-- HMAC-SHA1 over byte lists: hash an over-long key, zero-pad to the
64-byte block, then the nested inner/outer hashes with 0x36/0x5C pads. -/
def hmacSha1 (key msg : List Nat) : List Nat :=
  let k0 := if key.length > 64 then sha1 key else key
  let kp := k0 ++ List.replicate (64 - k0.length) 0
  sha1 (kp.map (· ^^^ 0x5C) ++ sha1 (kp.map (· ^^^ 0x36) ++ msg))

/-- The base64 alphabet. -/
def b64Table : List Char :=
  "ABCDEFGHIJKLMNOPQRSTUVWXYZabcdefghijklmnopqrstuvwxyz0123456789+/".data

/-- Character of a 6-bit group. -/
def b64c (n : Nat) : Char := b64Table.getD n 'A'

/-- Standard base64 of a byte list, with = padding. -/
def base64 : List Nat → List Char
  | [] => []
  | [a] => [b64c (a / 4), b64c (a % 4 * 16), '=', '=']
  | [a, b] => [b64c (a / 4), b64c (a % 4 * 16 + b / 16), b64c (b % 16 * 4), '=']
  | a :: b :: c :: rest =>
    [b64c (a / 4), b64c (a % 4 * 16 + b / 16), b64c (b % 16 * 4 + c / 64),
      b64c (c % 64)] ++ base64 rest

/-- UTF-8 bytes of a string. -/
def strBytes (s : String) : List Nat := s.data.flatMap (fun c => utf8Bytes c.toNat)

/-- crypto.createHmac("sha1", key).update(msg).digest("base64") on
strings. -/
def hmacSha1Base64 (key msg : String) : String :=
  String.mk (base64 (hmacSha1 (strBytes key) (strBytes msg)))

/-! ## The signer (src/index.js lines 90-94) -/

/-- Ordering of parameter entries by key, used by the spec-side signer
definition. -/
def byKey (a b : String × String) : Prop := a.1 ≤ b.1

instance : DecidableRel byKey := fun a b => inferInstanceAs (Decidable (a.1 ≤ b.1))

instance : IsTotal (String × String) byKey := ⟨fun a b => le_total a.1 b.1⟩

instance : IsTrans (String × String) byKey := ⟨fun _ _ _ h1 h2 => le_trans h1 h2⟩

/-- Line 91: Object.keys(params).sort().map(key =>
escaper(key) + "=" + escaper(params[key])).join("&"). -/
def canonicalizedQS (params : List (String × String)) : String :=
  String.intercalate "&"
    (((keys params).insertionSort (· ≤ ·)).map
      (fun key => escaper key ++ "=" ++ escaper ((lookup? params key).getD "")))

/-- getSignature of src/index.js: HMAC-SHA1 with key secret + "&" over
method.toUpperCase() + "&" + escaper("/") + "&" + escaper(canonicalizedQS),
base64-encoded. -/
def getSignature (params : List (String × String)) (secret : String)
    (method : String := "GET") : String :=
  hmacSha1Base64 (secret ++ "&")
    (method.toUpper ++ "&" ++ escaper "/" ++ "&" ++ escaper (canonicalizedQS params))

/-- Canonicalized query as the specification words it (second definition,
for the refinement claim about the signer): entries sorted ascending by
key, each rendered escape(key)=escape(value), joined with ampersands. -/
def specCanonicalQuery (params : List (String × String)) : String :=
  String.intercalate "&"
    ((params.insertionSort byKey).map (fun e => escaper e.1 ++ "=" ++ escaper e.2))

/-- The signature as the specification words it (second definition, for
the refinement claim): base64 of HMAC-SHA1 keyed with secret + "&" over
uppercase(method) + "&" + escape("/") + "&" + escape(Q). -/
def specSignature (params : List (String × String)) (secret method : String) : String :=
  hmacSha1Base64 (secret ++ "&")
    (method.toUpper ++ "&" ++ escaper "/" ++ "&" ++ escaper (specCanonicalQuery params))

/-! ## The request assembler and invoker (src/index.js lines 7-63) -/

/-- The fixed endpoint. -/
def AFS_ENDPOINT : String := "https://afs.aliyuncs.com"

/-- The fixed default request parameters. -/
def DEFAULTS : List (String × String) :=
  [("Action", "AuthenticateSig"), ("Format", "JSON"), ("RegionId", "cn-hangzhou"),
   ("SignatureMethod", "HMAC-SHA1"), ("SignatureVersion", "1.0"),
   ("Version", "2018-01-12")]

/-- Construction-time configuration. A missing field is modelled as the
empty string; JavaScript truthiness does not distinguish the two. -/
structure Config where
  AccessKeyId : String
  AppKey : String
  AccessKeySecret : String

/-- The outbound HTTP request the invoker performs on success. -/
structure HttpRequest where
  method : String
  url : String
  qs : List (String × String)
  timeout : Nat
  json : Bool

/-- The two throw sites of the invoker. -/
inductive VerifyError where
  | missingConfig
  | missingParam
deriving DecidableEq

/-- JavaScript truthiness of a string. -/
def truthy (s : String) : Bool := s != ""

/-- JavaScript truthiness of a possibly-missing string property. -/
def truthyO : Option String → Bool
  | none => false
  | some s => truthy s

/-- The first Object.assign layer of line 47-53: credential fields and the
generated nonce and timestamp, in source order. -/
def credsAndGenerated (config : Config) (nonce timestamp : String) :
    List (String × String) :=
  [("AccessKeyId", config.AccessKeyId), ("AppKey", config.AppKey),
   ("SignatureNonce", nonce), ("Timestamp", timestamp)]

/-- Line 47-53: Object.assign({AccessKeyId, AppKey, SignatureNonce,
Timestamp}, DEFAULTS, opts). -/
def buildParams (config : Config) (nonce timestamp : String)
    (opts : List (String × String)) : List (String × String) :=
  assign (assign (credsAndGenerated config nonce timestamp) DEFAULTS) opts

/-- Line 55: params.Signature = getSignature(params, AccessKeySecret,
"GET"); the query string actually sent. -/
def sentQS (config : Config) (nonce timestamp : String)
    (opts : List (String × String)) : List (String × String) :=
  setKey (buildParams config nonce timestamp opts) "Signature"
    (getSignature (buildParams config nonce timestamp opts) config.AccessKeySecret "GET")

/-- Number of network calls an invocation outcome performs. -/
def requestCount : Except VerifyError HttpRequest → Nat
  | .ok _ => 1
  | .error _ => 0

/-- The exported function of src/index.js, with the per-call random nonce
and ISO timestamp passed explicitly. Line 41 reads
if (!(AccessKeyId, AppKey, AccessKeySecret)): the comma operator discards
its left operands, so only AccessKeySecret is tested, and the test runs
inside the returned per-call function. Line 44 tests the conjunction of
the four required per-call fields before signing. -/
def verify (config : Config) (opts : List (String × String))
    (nonce timestamp : String) : Except VerifyError HttpRequest :=
  if !truthy config.AccessKeySecret then .error .missingConfig
  else if !(truthyO (lookup? opts "Token") && truthyO (lookup? opts "SessionId") &&
      truthyO (lookup? opts "Sig") && truthyO (lookup? opts "RemoteIp")) then
    .error .missingParam
  else
    .ok { method := "GET", url := AFS_ENDPOINT,
          qs := sentQS config nonce timestamp opts, timeout := 5000, json := true }

/-- The parameter merge as the specification words it (second definition,
for the refinement claim about the merge): defaults, then generated
values, then credential fields, then caller options, later layers
overriding earlier on key collision. -/
def specMergeC6 (config : Config) (nonce timestamp : String)
    (opts : List (String × String)) : List (String × String) :=
  assign (assign (assign DEFAULTS [("SignatureNonce", nonce), ("Timestamp", timestamp)])
      [("AccessKeyId", config.AccessKeyId), ("AppKey", config.AppKey)]) opts

/-- A parameter field is missing or empty. -/
def missingOrEmpty (opts : List (String × String)) (k : String) : Prop :=
  lookup? opts k = none ∨ lookup? opts k = some ""

/-! ## Concrete fixtures used by witnesses and counterexamples -/

/-- A well-formed configuration. -/
def cfgW : Config := { AccessKeyId := "id", AppKey := "app", AccessKeySecret := "sec" }

/-- Caller options with exactly the four required fields. -/
def opts4c : List (String × String) :=
  [("Token", "t"), ("SessionId", "s"), ("Sig", "g"), ("RemoteIp", "r")]

/-- Caller options that additionally smuggle in a Signature field. -/
def optsSig : List (String × String) :=
  [("Token", "t"), ("SessionId", "s"), ("Sig", "g"), ("RemoteIp", "r"),
   ("Signature", "evil")]

/-- The request produced for cfgW and opts4c. -/
def reqW : HttpRequest :=
  { method := "GET", url := AFS_ENDPOINT, qs := sentQS cfgW "n" "ts" opts4c,
    timeout := 5000, json := true }

/-- The request produced for cfgW and optsSig. -/
def reqSig : HttpRequest :=
  { method := "GET", url := AFS_ENDPOINT, qs := sentQS cfgW "n" "ts" optsSig,
    timeout := 5000, json := true }

/-- The request produced for the configuration with empty AccessKeyId and
AppKey. -/
def reqEmptyCreds : HttpRequest :=
  { method := "GET", url := AFS_ENDPOINT,
    qs := sentQS { AccessKeyId := "", AppKey := "", AccessKeySecret := "sec" } "n" "ts" opts4c,
    timeout := 5000, json := true }

/-- A character is none of the five characters the escaper re-escapes
after encodeURIComponent. -/
def notSpec (d : Char) : Prop :=
  d ≠ '!' ∧ d ≠ Char.ofNat 39 ∧ d ≠ '(' ∧ d ≠ ')' ∧ d ≠ '*'

instance (d : Char) : Decidable (notSpec d) := by
  unfold notSpec
  infer_instance

/-! ## Lemmas about the object model -/

theorem lookup_append (l1 l2 : List (String × String)) (k : String) :
    lookup? (l1 ++ l2) k = orO (lookup? l1 k) (lookup? l2 k) := by
  induction l1 with
  | nil => rfl
  | cons x xs ih =>
    obtain ⟨k1, v1⟩ := x
    by_cases h : k1 = k <;> simp [lookup?, h, ih, orO]

theorem orO_none_right (x : Option String) : orO x none = x := by
  cases x <;> rfl

theorem lookup_eq_none_iff (l : List (String × String)) (k : String) :
    lookup? l k = none ↔ k ∉ keys l := by
  induction l with
  | nil => simp [lookup?, keys]
  | cons x xs ih =>
    obtain ⟨k1, v1⟩ := x
    by_cases h : k1 = k <;> simp [lookup?, h, keys, ih] <;> simp [keys] at ih ⊢ <;>
      tauto

theorem lookup_map_override (a b : List (String × String)) (k : String) :
    lookup? (a.map (fun kv => (kv.1, (lookup? b kv.1).getD kv.2))) k =
      (lookup? a k).map (fun v => (lookup? b k).getD v) := by
  induction a with
  | nil => rfl
  | cons x xs ih =>
    obtain ⟨k1, v1⟩ := x
    by_cases h : k1 = k <;> simp [lookup?, h, ih]

theorem lookup_filter_notin (a b : List (String × String)) (k : String) :
    lookup? (b.filter (fun kv => decide (kv.1 ∉ keys a))) k =
      if k ∈ keys a then none else lookup? b k := by
  induction b with
  | nil => simp [lookup?]
  | cons x xs ih =>
    rw [List.filter_cons]
    by_cases hm : x.1 ∈ keys a
    · rw [if_neg (by simp [hm]), ih]
      by_cases hk : k ∈ keys a
      · rw [if_pos hk, if_pos hk]
      · rw [if_neg hk, if_neg hk]
        have hne : x.1 ≠ k := fun e => hk (e ▸ hm)
        simp [lookup?, hne]
    · rw [if_pos (by simp [hm])]
      by_cases h : x.1 = k
      · rw [← h]
        simp [lookup?, hm]
      · simp only [lookup?, if_neg h]
        exact ih

theorem lookup_assign (a b : List (String × String)) (k : String) :
    lookup? (assign a b) k = orO (lookup? b k) (lookup? a k) := by
  unfold assign
  rw [lookup_append, lookup_map_override, lookup_filter_notin]
  cases ha : lookup? a k with
  | some v =>
    cases hb : lookup? b k <;> simp [orO, Option.getD]
  | none =>
    have hk : k ∉ keys a := (lookup_eq_none_iff a k).mp ha
    rw [if_neg hk]
    cases hb : lookup? b k <;> simp [orO]

theorem lookup_map_set (l : List (String × String)) (k v k2 : String) (h : k2 ≠ k) :
    lookup? (l.map (fun kv => if kv.1 = k then (k, v) else kv)) k2 = lookup? l k2 := by
  induction l with
  | nil => rfl
  | cons x xs ih =>
    simp only [List.map_cons]
    by_cases hk : x.1 = k
    · rw [if_pos hk]
      have h1 : ¬ ((k, v).1 = k2) := fun e => h e.symm
      have h2 : ¬ (x.1 = k2) := fun e => h (hk ▸ e).symm
      simp only [lookup?, if_neg h1, if_neg h2]
      exact ih
    · rw [if_neg hk]
      by_cases h2 : x.1 = k2 <;> simp [lookup?, h2, ih]

theorem lookup_setKey_ne (l : List (String × String)) (k v k2 : String) (h : k2 ≠ k) :
    lookup? (setKey l k v) k2 = lookup? l k2 := by
  unfold setKey
  by_cases hm : k ∈ keys l
  · rw [if_pos hm]
    exact lookup_map_set l k v k2 h
  · rw [if_neg hm, lookup_append]
    have h1 : ¬ ((k, v).1 = k2) := fun e => h e.symm
    simp only [lookup?, if_neg h1]
    exact orO_none_right _

theorem lookup_setKey_self (l : List (String × String)) (k v : String) :
    lookup? (setKey l k v) k = some v := by
  unfold setKey
  by_cases hm : k ∈ keys l
  · rw [if_pos hm]
    induction l with
    | nil => simp [keys] at hm
    | cons x xs ih =>
      simp only [List.map_cons]
      by_cases hk : x.1 = k
      · rw [if_pos hk]
        simp [lookup?]
      · rw [if_neg hk]
        have hx : k ∈ keys xs := by
          rcases (by simpa [keys] using hm : k = x.1 ∨ k ∈ keys xs) with h | h
          · exact absurd h.symm hk
          · exact h
        simp only [lookup?, if_neg hk]
        exact ih hx
  · rw [if_neg hm, lookup_append]
    have h0 : lookup? l k = none := (lookup_eq_none_iff l k).mpr hm
    simp [h0, orO, lookup?]

theorem removeKey_notin (l : List (String × String)) (k : String)
    (h : k ∉ keys l) : removeKey l k = l := by
  induction l with
  | nil => rfl
  | cons x xs ih =>
    simp only [keys, List.map_cons, List.mem_cons, not_or] at h
    unfold removeKey
    rw [List.filter_cons, if_pos (by simp; exact fun e => h.1 e.symm)]
    have ht : removeKey xs k = xs := ih (by simpa [keys] using h.2)
    unfold removeKey at ht
    rw [ht]

theorem removeKey_setKey (l : List (String × String)) (k v : String)
    (h : k ∉ keys l) : removeKey (setKey l k v) k = l := by
  unfold setKey
  rw [if_neg h]
  unfold removeKey
  rw [List.filter_append]
  have h1 : List.filter (fun kv => decide (kv.1 ≠ k)) l = l := removeKey_notin l k h
  have h2 : List.filter (fun kv => decide (kv.1 ≠ k)) [(k, v)] = [] := by simp
  unfold removeKey at h1
  rw [h1, h2, List.append_nil]

theorem lookup_mem_keys (l : List (String × String)) (k v : String)
    (h : lookup? l k = some v) : k ∈ keys l := by
  by_contra hk
  rw [(lookup_eq_none_iff l k).mpr hk] at h
  cases h

theorem mem_of_lookup (l : List (String × String)) (k v : String)
    (h : lookup? l k = some v) : (k, v) ∈ l := by
  induction l with
  | nil => cases h
  | cons x xs ih =>
    obtain ⟨a, b⟩ := x
    by_cases hx : a = k
    · simp only [lookup?, if_pos hx] at h
      subst hx
      rw [Option.some.inj h]
      exact List.mem_cons_self _ _
    · simp only [lookup?, if_neg hx] at h
      exact List.mem_cons_of_mem _ (ih h)

theorem lookup_of_mem_nodup (l : List (String × String)) (e : String × String)
    (hnd : (keys l).Nodup) (hm : e ∈ l) : lookup? l e.1 = some e.2 := by
  induction l with
  | nil => cases hm
  | cons x xs ih =>
    have hnd2 : x.1 ∉ keys xs ∧ (keys xs).Nodup := by
      simpa [keys, List.nodup_cons] using hnd
    rcases List.mem_cons.mp hm with rfl | hm2
    · simp [lookup?]
    · by_cases hx : x.1 = e.1
      · exfalso
        apply hnd2.1
        rw [hx]
        exact List.mem_map_of_mem Prod.fst hm2
      · simp only [lookup?, if_neg hx]
        exact ih hnd2.2 hm2

theorem lookup_perm (p1 p2 : List (String × String)) (h : p1.Perm p2)
    (hnd : (keys p1).Nodup) (k : String) : lookup? p1 k = lookup? p2 k := by
  have hnd2 : (keys p2).Nodup := ((h.map Prod.fst).nodup_iff).mp hnd
  cases e : lookup? p1 k with
  | some v =>
    have hm : (k, v) ∈ p2 := h.subset (mem_of_lookup p1 k v e)
    exact (lookup_of_mem_nodup p2 (k, v) hnd2 hm).symm
  | none =>
    have h1 : k ∉ keys p1 := (lookup_eq_none_iff p1 k).mp e
    have h2 : k ∉ keys p2 := fun hk => h1 (((h.map Prod.fst).mem_iff).mpr hk)
    exact ((lookup_eq_none_iff p2 k).mpr h2).symm

/-! ## Lemmas relating key-sorting to entry-sorting -/

theorem sortedKeys_eq (params : List (String × String)) :
    (keys params).insertionSort (· ≤ ·) = (params.insertionSort byKey).map Prod.fst := by
  apply List.eq_of_perm_of_sorted (r := (· ≤ · : String → String → Prop))
  · exact (List.perm_insertionSort _ _).trans
      ((List.perm_insertionSort byKey params).map Prod.fst).symm
  · exact List.sorted_insertionSort _ _
  · exact (List.sorted_insertionSort byKey params).map Prod.fst (fun _ _ hab => hab)

theorem canonicalizedQS_eq_spec (params : List (String × String))
    (h : (keys params).Nodup) : canonicalizedQS params = specCanonicalQuery params := by
  unfold canonicalizedQS specCanonicalQuery
  rw [sortedKeys_eq, List.map_map]
  congr 1
  apply List.map_congr_left
  intro e he
  have hmem : e ∈ params := (List.perm_insertionSort byKey params).subset he
  have hl : lookup? params e.1 = some e.2 := lookup_of_mem_nodup params e h hmem
  simp [Function.comp, hl]

theorem canonicalizedQS_perm (p1 p2 : List (String × String))
    (hperm : p1.Perm p2) (hnd : (keys p1).Nodup) :
    canonicalizedQS p1 = canonicalizedQS p2 := by
  unfold canonicalizedQS
  have hks : (keys p1).insertionSort (· ≤ ·) = (keys p2).insertionSort (· ≤ ·) := by
    apply List.eq_of_perm_of_sorted (r := (· ≤ · : String → String → Prop))
    · exact (List.perm_insertionSort _ _).trans
        ((hperm.map Prod.fst).trans (List.perm_insertionSort _ _).symm)
    · exact List.sorted_insertionSort _ _
    · exact List.sorted_insertionSort _ _
  rw [hks]
  congr 1
  apply List.map_congr_left
  intro x _
  rw [lookup_perm p1 p2 hperm hnd x]

/-! ## Lemmas about the escaper -/

theorem replaceAllC_append (c : Char) (r : List Char) (l1 l2 : List Char) :
    replaceAllC c r (l1 ++ l2) = replaceAllC c r l1 ++ replaceAllC c r l2 := by
  simp [replaceAllC]

theorem escaperChain_append (l1 l2 : List Char) :
    escaperChain (l1 ++ l2) = escaperChain l1 ++ escaperChain l2 := by
  simp [escaperChain, replaceAllC_append]

theorem escaperChain_flatMap (l : List Char) (f : Char → List Char) :
    escaperChain (l.flatMap f) = l.flatMap (fun c => escaperChain (f c)) := by
  induction l with
  | nil => rfl
  | cons x xs ih => simp [List.flatMap_cons, escaperChain_append, ih]

theorem replaceAllC_id (c : Char) (r : List Char) (l : List Char)
    (h : ∀ d ∈ l, d ≠ c) : replaceAllC c r l = l := by
  induction l with
  | nil => rfl
  | cons x xs ih =>
    have hx : x ≠ c := h x (List.mem_cons_self x xs)
    have ht : replaceAllC c r xs = xs := ih (fun d hd => h d (List.mem_cons_of_mem x hd))
    simp only [replaceAllC, List.flatMap_cons, if_neg hx] at *
    rw [ht]
    rfl

theorem escaperChain_id (l : List Char) (h : ∀ d ∈ l, notSpec d) :
    escaperChain l = l := by
  unfold escaperChain
  rw [replaceAllC_id _ _ l (fun d hd => (h d hd).1)]
  rw [replaceAllC_id _ _ l (fun d hd => (h d hd).2.1)]
  rw [replaceAllC_id _ _ l (fun d hd => (h d hd).2.2.1)]
  rw [replaceAllC_id _ _ l (fun d hd => (h d hd).2.2.2.1)]
  rw [replaceAllC_id _ _ l (fun d hd => (h d hd).2.2.2.2)]

theorem hexDigit_notSpec : ∀ k, k < 16 → notSpec (hexDigit k) := by decide

theorem pct_notSpec (b : Nat) (hb : b < 256) : ∀ d ∈ pctByte b, notSpec d := by
  intro d hd
  simp only [pctByte, List.mem_cons, List.not_mem_nil, or_false] at hd
  rcases hd with rfl | rfl | rfl
  · decide
  · exact hexDigit_notSpec _ (by omega)
  · exact hexDigit_notSpec _ (by omega)

theorem utf8Bytes_lt (n : Nat) (hn : n < 1114112) : ∀ b ∈ utf8Bytes n, b < 256 := by
  intro b hb
  unfold utf8Bytes at hb
  split_ifs at hb with h1 h2 h3
  · simp only [List.mem_cons, List.not_mem_nil, or_false] at hb
    omega
  · simp only [List.mem_cons, List.not_mem_nil, or_false] at hb
    rcases hb with rfl | rfl <;> omega
  · simp only [List.mem_cons, List.not_mem_nil, or_false] at hb
    rcases hb with rfl | rfl | rfl <;> omega
  · simp only [List.mem_cons, List.not_mem_nil, or_false] at hb
    rcases hb with rfl | rfl | rfl | rfl <;> omega

theorem char_toNat_lt (c : Char) : c.toNat < 1114112 := by
  have h := c.valid
  unfold UInt32.isValidChar Nat.isValidChar at h
  rcases h with h | h
  · exact Nat.lt_trans h (by norm_num)
  · exact h.2

theorem unreserved_imp_uriUnescaped (c : Char) (h : rfc3986Unreserved c = true) :
    uriUnescaped c = true := by
  unfold rfc3986Unreserved at h
  unfold uriUnescaped
  simp only [Bool.or_eq_true, beq_iff_eq] at h ⊢
  tauto

theorem kept_unreserved (c : Char) (hu : uriUnescaped c = true) (hs : notSpec c) :
    rfc3986Unreserved c = true := by
  obtain ⟨n1, n2, n3, n4, n5⟩ := hs
  unfold uriUnescaped at hu
  unfold rfc3986Unreserved
  simp only [Bool.or_eq_true, beq_iff_eq] at hu ⊢
  tauto

theorem chain_encodeChar (c : Char) : escaperChain (encodeChar c) = rfc3986EscapeChar c := by
  by_cases hu : uriUnescaped c = true
  · by_cases hs : notSpec c
    · have h1 : encodeChar c = [c] := by simp [encodeChar, hu]
      have h2 : rfc3986EscapeChar c = [c] := by
        simp [rfc3986EscapeChar, kept_unreserved c hu hs]
      rw [h1, h2]
      exact escaperChain_id [c] (by intro d hd; simp at hd; rw [hd]; exact hs)
    · have h5 : c = '!' ∨ c = Char.ofNat 39 ∨ c = '(' ∨ c = ')' ∨ c = '*' := by
        by_contra hc
        push_neg at hc
        exact hs ⟨hc.1, hc.2.1, hc.2.2.1, hc.2.2.2.1, hc.2.2.2.2⟩
      rcases h5 with rfl | rfl | rfl | rfl | rfl <;> decide
  · have hr : ¬ rfc3986Unreserved c = true :=
      fun h => hu (unreserved_imp_uriUnescaped c h)
    have h1 : encodeChar c = (utf8Bytes c.toNat).flatMap pctByte := by
      simp [encodeChar, hu]
    have h2 : rfc3986EscapeChar c = (utf8Bytes c.toNat).flatMap pctByte := by
      simp [rfc3986EscapeChar, hr]
    rw [h1, h2]
    apply escaperChain_id
    intro d hd
    obtain ⟨b, hb, hdb⟩ := List.mem_flatMap.mp hd
    exact pct_notSpec b (utf8Bytes_lt c.toNat (char_toNat_lt c) b hb) d hdb

theorem flatMap_congr_fun (l : List Char) (f g : Char → List Char)
    (h : ∀ a ∈ l, f a = g a) : l.flatMap f = l.flatMap g := by
  induction l with
  | nil => rfl
  | cons x xs ih =>
    simp only [List.flatMap_cons, h x (List.mem_cons_self x xs),
      ih (fun a ha => h a (List.mem_cons_of_mem x ha))]

theorem escaper_eq_rfc3986 (s : String) : escaper s = rfc3986Escape s := by
  unfold escaper rfc3986Escape encodeURIComponentL
  rw [escaperChain_flatMap]
  exact congrArg String.mk (flatMap_congr_fun s.data _ _ (fun c _ => chain_encodeChar c))

theorem lookup_sentQS_default (config : Config) (opts : List (String × String))
    (nonce timestamp k dv : String) (hk : lookup? DEFAULTS k = some dv)
    (hne : k ≠ "Signature") :
    lookup? (sentQS config nonce timestamp opts) k =
      some ((lookup? opts k).getD dv) := by
  unfold sentQS
  rw [lookup_setKey_ne _ _ _ _ hne]
  unfold buildParams
  rw [lookup_assign, lookup_assign, hk]
  cases ho : lookup? opts k <;> simp [orO]

/-! ## The claims -/

/-- C1: for every parameter map with unique keys, every secret and every
method, the signature returned by getSignature equals base64 of HMAC-SHA1
keyed with secret + "&" over uppercase(method) + "&" + escape("/") + "&" +
escape(Q), where Q lists the entries sorted ascending by key, each
rendered escape(key)=escape(value) and joined with ampersands — the
computation specSignature transcribes from the specification. -/
theorem claimC1_signature (params : List (String × String)) (secret method : String)
    (h : (keys params).Nodup) :
    getSignature params secret method = specSignature params secret method := by
  unfold getSignature specSignature
  rw [canonicalizedQS_eq_spec params h]

/-- Witness for C1 at a concrete two-entry map. -/
theorem claimC1_witness :
    (keys [("b", "1"), ("a", "2")]).Nodup ∧
      getSignature [("b", "1"), ("a", "2")] "secret" "GET" =
        specSignature [("b", "1"), ("a", "2")] "secret" "GET" :=
  ⟨by decide, claimC1_signature [("b", "1"), ("a", "2")] "secret" "GET" (by decide)⟩

/-- C2: the escaper percent-encodes per RFC3986, leaving exactly the
unreserved characters unescaped and additionally escaping the five
characters ! apostrophe ( ) * ; in particular escaping the five-character
string of those characters yields %21%27%28%29%2A and escaping the empty
string yields the empty string; the function is pure, total over all
strings, and percent-encodes the UTF-8 bytes of non-ASCII characters. -/
theorem claimC2_escaper :
    (∀ s : String, escaper s = rfc3986Escape s) ∧
      escaper (String.mk ['!', Char.ofNat 39, '(', ')', '*']) = "%21%27%28%29%2A" ∧
      escaper "" = "" :=
  ⟨escaper_eq_rfc3986, by decide, rfl⟩

/-- C3 counterexample: when the caller options themselves carry a
Signature key, the parameter set the signature is computed over is not
the sent set minus Signature — the claim fails at this input. -/
theorem claimC3_counterexample :
    verify cfgW optsSig "n" "ts" = Except.ok reqSig ∧
      ¬ buildParams cfgW "n" "ts" optsSig =
          removeKey (sentQS cfgW "n" "ts" optsSig) "Signature" :=
  ⟨rfl, by decide⟩

/-- C3 amended: for every invocation that sends a request whose caller
options do not contain a key Signature, the parameter set the Signature
is computed over is exactly the sent parameter set minus the Signature
field, which is computed over all other parameters and then appended. -/
theorem claimC3_amended (config : Config) (opts : List (String × String))
    (nonce timestamp : String) (req : HttpRequest)
    (hs : lookup? opts "Signature" = none)
    (hv : verify config opts nonce timestamp = Except.ok req) :
    removeKey req.qs "Signature" = buildParams config nonce timestamp opts := by
  unfold verify at hv
  by_cases h1 : (!truthy config.AccessKeySecret) = true
  · rw [if_pos h1] at hv
    exact Except.noConfusion hv
  · rw [if_neg h1] at hv
    by_cases h2 : (!(truthyO (lookup? opts "Token") && truthyO (lookup? opts "SessionId") &&
        truthyO (lookup? opts "Sig") && truthyO (lookup? opts "RemoteIp"))) = true
    · rw [if_pos h2] at hv
      exact Except.noConfusion hv
    · rw [if_neg h2] at hv
      injection hv with hrec
      subst hrec
      show removeKey (sentQS config nonce timestamp opts) "Signature" = _
      unfold sentQS
      apply removeKey_setKey
      intro hmem
      have hnone : lookup? (buildParams config nonce timestamp opts) "Signature" = none := by
        unfold buildParams
        rw [lookup_assign, lookup_assign, hs]
        rfl
      exact (lookup_eq_none_iff _ _).mp hnone hmem

/-- Witness for the amended C3 at a concrete invocation. -/
theorem claimC3_witness :
    lookup? opts4c "Signature" = none ∧
      verify cfgW opts4c "n" "ts" = Except.ok reqW ∧
      removeKey reqW.qs "Signature" = buildParams cfgW "n" "ts" opts4c :=
  ⟨rfl, rfl, claimC3_amended cfgW opts4c "n" "ts" reqW rfl rfl⟩

/-- C4 (code bug): the claim says every missing or empty credential fails
with a configuration error at construction time; line 41 of the source
uses the comma operator, so only AccessKeySecret is tested, and the test
runs at call time inside the returned function. With empty AccessKeyId
and AppKey but a non-empty AccessKeySecret the call succeeds, and an
empty AccessKeySecret only fails when the returned function is called. -/
theorem claimC4_comma_bug :
    verify { AccessKeyId := "", AppKey := "", AccessKeySecret := "sec" } opts4c "n" "ts" =
        Except.ok reqEmptyCreds ∧
      verify { AccessKeyId := "id", AppKey := "app", AccessKeySecret := "" } opts4c "n" "ts" =
        Except.error VerifyError.missingConfig :=
  ⟨rfl, rfl⟩

/-- C5: when the configuration passes the code's check, a missing or
empty Token, SessionId, Sig or RemoteIp makes the call fail with the
missing-parameter error before signing, and zero network calls are
performed. -/
theorem claimC5_param_check (config : Config) (opts : List (String × String))
    (nonce timestamp : String) (hcfg : truthy config.AccessKeySecret = true)
    (h : missingOrEmpty opts "Token" ∨ missingOrEmpty opts "SessionId" ∨
      missingOrEmpty opts "Sig" ∨ missingOrEmpty opts "RemoteIp") :
    verify config opts nonce timestamp = Except.error VerifyError.missingParam ∧
      requestCount (verify config opts nonce timestamp) = 0 := by
  have hfalse : (truthyO (lookup? opts "Token") && truthyO (lookup? opts "SessionId") &&
      truthyO (lookup? opts "Sig") && truthyO (lookup? opts "RemoteIp")) = false := by
    rcases h with h | h | h | h <;> rcases h with h | h <;>
      simp [truthyO, truthy, h]
  have hr : verify config opts nonce timestamp = Except.error VerifyError.missingParam := by
    unfold verify
    rw [hcfg, hfalse]
    rfl
  exact ⟨hr, by rw [hr]; rfl⟩

/-- Witness for C5: a call missing Token fails with the parameter error
and performs zero network calls. -/
theorem claimC5_witness :
    truthy cfgW.AccessKeySecret = true ∧
      missingOrEmpty [("SessionId", "s"), ("Sig", "g"), ("RemoteIp", "r")] "Token" ∧
      verify cfgW [("SessionId", "s"), ("Sig", "g"), ("RemoteIp", "r")] "n" "ts" =
        Except.error VerifyError.missingParam ∧
      requestCount (verify cfgW [("SessionId", "s"), ("Sig", "g"), ("RemoteIp", "r")] "n" "ts") = 0 := by
  refine ⟨rfl, Or.inl rfl, ?_, ?_⟩
  · exact (claimC5_param_check cfgW [("SessionId", "s"), ("Sig", "g"), ("RemoteIp", "r")]
      "n" "ts" rfl (Or.inl (Or.inl rfl))).1
  · exact (claimC5_param_check cfgW [("SessionId", "s"), ("Sig", "g"), ("RemoteIp", "r")]
      "n" "ts" rfl (Or.inl (Or.inl rfl))).2

/-- C6: the per-call parameter map equals, key for key, the merge of the
four layers in the order fixed defaults, generated values, credential
fields, caller options, with later layers overriding earlier ones — the
merge specMergeC6 transcribes from the specification. -/
theorem claimC6_merge (config : Config) (nonce timestamp : String)
    (opts : List (String × String)) (k : String) :
    lookup? (buildParams config nonce timestamp opts) k =
      lookup? (specMergeC6 config nonce timestamp opts) k := by
  unfold buildParams specMergeC6 credsAndGenerated
  simp only [lookup_assign]
  congr 1
  rw [show ([("AccessKeyId", config.AccessKeyId), ("AppKey", config.AppKey),
      ("SignatureNonce", nonce), ("Timestamp", timestamp)] : List (String × String)) =
      [("AccessKeyId", config.AccessKeyId), ("AppKey", config.AppKey)] ++
        [("SignatureNonce", nonce), ("Timestamp", timestamp)] from rfl,
    lookup_append]
  cases hd : lookup? DEFAULTS k with
  | none =>
    cases hcr : lookup? [("AccessKeyId", config.AccessKeyId),
        ("AppKey", config.AppKey)] k <;>
      cases hgen : lookup? [("SignatureNonce", nonce), ("Timestamp", timestamp)] k <;>
      simp [orO]
  | some v =>
    have hk := lookup_mem_keys _ _ _ hd
    simp only [DEFAULTS, keys, List.map_cons, List.mem_cons, List.map_nil,
      List.not_mem_nil, or_false] at hk
    rcases hk with rfl | rfl | rfl | rfl | rfl | rfl <;> rfl

/-- C7: the signature is invariant under the insertion order of the
parameter map: permuting the entries of a unique-keyed map does not
change getSignature. -/
theorem claimC7_order_invariant (p1 p2 : List (String × String))
    (secret method : String) (hperm : p1.Perm p2) (hnd : (keys p1).Nodup) :
    getSignature p1 secret method = getSignature p2 secret method := by
  unfold getSignature
  rw [canonicalizedQS_perm p1 p2 hperm hnd]

/-- Witness for C7 at the maps of the claim, b first against a first. -/
theorem claimC7_witness :
    ([("b", "1"), ("a", "2")] : List (String × String)).Perm [("a", "2"), ("b", "1")] ∧
      (keys [("b", "1"), ("a", "2")]).Nodup ∧
      getSignature [("b", "1"), ("a", "2")] "s" "GET" =
        getSignature [("a", "2"), ("b", "1")] "s" "GET" :=
  ⟨by decide, by decide,
    claimC7_order_invariant [("b", "1"), ("a", "2")] [("a", "2"), ("b", "1")] "s" "GET"
      (by decide) (by decide)⟩

/-- C8: the signer is deterministic and side-effect-free — on equal
parameter maps, secrets and methods it returns equal signatures; in the
embedding getSignature is a pure function of its three arguments. -/
theorem claimC8_deterministic (p1 p2 : List (String × String))
    (s1 s2 m1 m2 : String) (hp : p1 = p2) (hs : s1 = s2) (hm : m1 = m2) :
    getSignature p1 s1 m1 = getSignature p2 s2 m2 := by
  rw [hp, hs, hm]

/-- Witness for C8 at a concrete repeated call. -/
theorem claimC8_witness :
    ([("a", "2")] : List (String × String)) = [("a", "2")] ∧
      ("sec" : String) = "sec" ∧ ("GET" : String) = "GET" ∧
      getSignature [("a", "2")] "sec" "GET" = getSignature [("a", "2")] "sec" "GET" :=
  ⟨rfl, rfl, rfl, claimC8_deterministic [("a", "2")] [("a", "2")] "sec" "sec" "GET" "GET" rfl rfl rfl⟩

set_option maxHeartbeats 1200000 in
/-- C9: every successful invocation issues exactly one GET request to the
fixed endpoint with a 5000 ms timeout and JSON decoding, and its query
contains each fixed default unless the caller options override it. -/
theorem claimC9_request (config : Config) (opts : List (String × String))
    (nonce timestamp : String) (req : HttpRequest)
    (hv : verify config opts nonce timestamp = Except.ok req) :
    req.method = "GET" ∧ req.url = AFS_ENDPOINT ∧ req.timeout = 5000 ∧
      req.json = true ∧ requestCount (verify config opts nonce timestamp) = 1 ∧
      ∀ kv ∈ DEFAULTS, lookup? req.qs kv.1 = some ((lookup? opts kv.1).getD kv.2) := by
  have hv2 := hv
  unfold verify at hv
  by_cases h1 : (!truthy config.AccessKeySecret) = true
  · rw [if_pos h1] at hv
    exact Except.noConfusion hv
  · rw [if_neg h1] at hv
    by_cases h2 : (!(truthyO (lookup? opts "Token") && truthyO (lookup? opts "SessionId") &&
        truthyO (lookup? opts "Sig") && truthyO (lookup? opts "RemoteIp"))) = true
    · rw [if_pos h2] at hv
      exact Except.noConfusion hv
    · rw [if_neg h2] at hv
      injection hv with hrec
      subst hrec
      refine ⟨rfl, rfl, rfl, rfl, by rw [hv2]; rfl, ?_⟩
      intro kv hkv
      simp only [DEFAULTS, List.mem_cons, List.not_mem_nil, or_false] at hkv
      rcases hkv with rfl | rfl | rfl | rfl | rfl | rfl <;>
        exact lookup_sentQS_default config opts nonce timestamp _ _ (by rfl) (by decide)

/-- Witness for C9 at a concrete successful invocation. -/
theorem claimC9_witness :
    verify cfgW opts4c "n" "ts" = Except.ok reqW ∧
      (reqW.method = "GET" ∧ reqW.url = AFS_ENDPOINT ∧ reqW.timeout = 5000 ∧
        reqW.json = true ∧ requestCount (verify cfgW opts4c "n" "ts") = 1 ∧
        ∀ kv ∈ DEFAULTS, lookup? reqW.qs kv.1 = some ((lookup? opts4c kv.1).getD kv.2)) :=
  ⟨rfl, claimC9_request cfgW opts4c "n" "ts" reqW rfl⟩

/-- C10: since the caller options are the last merge layer, a caller
value for SignatureNonce, Timestamp, AccessKeyId or AppKey replaces the
generated or credential-derived value in both the signed parameter set
and the outbound query string. -/
theorem claimC10_override (config : Config) (nonce timestamp : String)
    (opts : List (String × String)) (k v : String)
    (hk : k = "SignatureNonce" ∨ k = "Timestamp" ∨ k = "AccessKeyId" ∨ k = "AppKey")
    (hv : lookup? opts k = some v) :
    lookup? (buildParams config nonce timestamp opts) k = some v ∧
      lookup? (sentQS config nonce timestamp opts) k = some v := by
  have h1 : lookup? (buildParams config nonce timestamp opts) k = some v := by
    unfold buildParams
    rw [lookup_assign, hv]
    rfl
  refine ⟨h1, ?_⟩
  unfold sentQS
  have hne : k ≠ "Signature" := by rcases hk with rfl | rfl | rfl | rfl <;> decide
  rw [lookup_setKey_ne _ _ _ _ hne]
  exact h1

/-- Witness for C10: a caller-fixed SignatureNonce survives into the
merged parameters and the outbound query. -/
theorem claimC10_witness :
    lookup? [("SignatureNonce", "fixed")] "SignatureNonce" = some "fixed" ∧
      lookup? (buildParams cfgW "n" "ts" [("SignatureNonce", "fixed")]) "SignatureNonce" =
        some "fixed" ∧
      lookup? (sentQS cfgW "n" "ts" [("SignatureNonce", "fixed")]) "SignatureNonce" =
        some "fixed" :=
  ⟨rfl,
    (claimC10_override cfgW "n" "ts" [("SignatureNonce", "fixed")] "SignatureNonce" "fixed"
      (Or.inl rfl) rfl).1,
    (claimC10_override cfgW "n" "ts" [("SignatureNonce", "fixed")] "SignatureNonce" "fixed"
      (Or.inl rfl) rfl).2⟩
